import Mathlib

/-!
Verification of the gaesup-store Rust core (`packages/core-rust/src`).

The document model (`serde_json::Value`) is embedded as `Gaesup.Json`:
numbers are modelled as integers (the claims under study do not exercise
IEEE-754-specific behaviour), objects as association lists in insertion
order.  Serialisation to the snapshot byte buffer is modelled at token
level: one `Tok` per structural atom of the JSON wire format, which
captures exactly the information content of `serde_json::to_vec` /
`from_slice` without re-deriving the character-level lexer.
-/

namespace Gaesup

/-- Document value, embedding `serde_json::Value` from `lib.rs`. -/
inductive Json where
  | null
  | bool (b : Bool)
  | num (n : Int)
  | str (s : String)
  | arr (items : List Json)
  | obj (fields : List (String × Json))

/-- One token of the serialised snapshot format (`serde_json::to_vec`). -/
inductive Tok where
  | tNull
  | tBool (b : Bool)
  | tNum (n : Int)
  | tStr (s : String)
  | arrOpen
  | arrClose
  | objOpen
  | objClose
deriving DecidableEq

mutual

/-- Serialiser, modelling `serde_json::to_vec` on the root value
(`create_snapshot` in `lib.rs`). -/
def encodeJson : Json → List Tok
  | .null => [Tok.tNull]
  | .bool b => [Tok.tBool b]
  | .num n => [Tok.tNum n]
  | .str s => [Tok.tStr s]
  | .arr items => Tok.arrOpen :: (encodeItems items ++ [Tok.arrClose])
  | .obj fields => Tok.objOpen :: (encodeFields fields ++ [Tok.objClose])

/-- Serialise the elements of an array in order. -/
def encodeItems : List Json → List Tok
  | [] => []
  | x :: xs => encodeJson x ++ encodeItems xs

/-- Serialise the fields of an object in order (key token, then value). -/
def encodeFields : List (String × Json) → List Tok
  | [] => []
  | (k, v) :: fs => Tok.tStr k :: (encodeJson v ++ encodeFields fs)

end

/-- Parser mode: a value, the items of an array, or the fields of an object. -/
inductive PMode where
  | val
  | items
  | fields

/-- Parser intermediate result matching the mode. -/
inductive PRes where
  | v (x : Json)
  | items (xs : List Json)
  | fields (fs : List (String × Json))

/-- Fuel-indexed recursive-descent parser over the token stream, modelling
`serde_json::from_slice` (`restore_snapshot` in `lib.rs`). -/
def parseStep : Nat → PMode → List Tok → Option (PRes × List Tok)
  | 0, _, _ => none
  | _ + 1, PMode.val, [] => none
  | n + 1, PMode.val, t :: ts =>
    match t with
    | Tok.tNull => some (PRes.v Json.null, ts)
    | Tok.tBool b => some (PRes.v (Json.bool b), ts)
    | Tok.tNum m => some (PRes.v (Json.num m), ts)
    | Tok.tStr s => some (PRes.v (Json.str s), ts)
    | Tok.arrOpen =>
      match parseStep n PMode.items ts with
      | some (PRes.items xs, ts') => some (PRes.v (Json.arr xs), ts')
      | _ => none
    | Tok.objOpen =>
      match parseStep n PMode.fields ts with
      | some (PRes.fields fs, ts') => some (PRes.v (Json.obj fs), ts')
      | _ => none
    | _ => none
  | _ + 1, PMode.items, [] => none
  | n + 1, PMode.items, t :: ts =>
    if t = Tok.arrClose then some (PRes.items [], ts)
    else
      match parseStep n PMode.val (t :: ts) with
      | some (PRes.v x, ts') =>
        match parseStep n PMode.items ts' with
        | some (PRes.items xs, ts'') => some (PRes.items (x :: xs), ts'')
        | _ => none
      | _ => none
  | _ + 1, PMode.fields, [] => none
  | n + 1, PMode.fields, t :: ts =>
    if t = Tok.objClose then some (PRes.fields [], ts)
    else
      match t with
      | Tok.tStr k =>
        match parseStep n PMode.val ts with
        | some (PRes.v x, ts') =>
          match parseStep n PMode.fields ts' with
          | some (PRes.fields fs, ts'') => some (PRes.fields ((k, x) :: fs), ts'')
          | _ => none
        | _ => none
      | _ => none

/-- Deserialiser: parse one value and require the stream to be consumed,
as `serde_json::from_slice` does. -/
def decodeJson (ts : List Tok) : Option Json :=
  match parseStep ts.length PMode.val ts with
  | some (PRes.v x, []) => some x
  | _ => none

theorem encodeJson_head (x : Json) :
    ∃ t ts, encodeJson x = t :: ts ∧ t ≠ Tok.arrClose ∧ t ≠ Tok.objClose := by
  cases x with
  | null => exact ⟨Tok.tNull, [], by simp [encodeJson], by simp, by simp⟩
  | bool b => exact ⟨Tok.tBool b, [], by simp [encodeJson], by simp, by simp⟩
  | num n => exact ⟨Tok.tNum n, [], by simp [encodeJson], by simp, by simp⟩
  | str s => exact ⟨Tok.tStr s, [], by simp [encodeJson], by simp, by simp⟩
  | arr items =>
    exact ⟨Tok.arrOpen, encodeItems items ++ [Tok.arrClose], by simp [encodeJson],
      by simp, by simp⟩
  | obj fields =>
    exact ⟨Tok.objOpen, encodeFields fields ++ [Tok.objClose], by simp [encodeJson],
      by simp, by simp⟩

theorem encodeJson_length_pos (x : Json) : 1 ≤ (encodeJson x).length := by
  obtain ⟨t, ts, hx, -, -⟩ := encodeJson_head x
  simp [hx]

theorem parseStep_encode (n : Nat) :
    (∀ x rest, (encodeJson x).length ≤ n →
      parseStep n PMode.val (encodeJson x ++ rest) = some (PRes.v x, rest)) ∧
    (∀ xs rest, (encodeItems xs).length + 1 ≤ n →
      parseStep n PMode.items (encodeItems xs ++ Tok.arrClose :: rest) =
        some (PRes.items xs, rest)) ∧
    (∀ fs rest, (encodeFields fs).length + 1 ≤ n →
      parseStep n PMode.fields (encodeFields fs ++ Tok.objClose :: rest) =
        some (PRes.fields fs, rest)) := by
  induction n using Nat.strong_induction_on with
  | _ n IH =>
    refine ⟨?_, ?_, ?_⟩
    · intro x rest hlen
      cases n with
      | zero =>
        have := encodeJson_length_pos x
        omega
      | succ m =>
        cases x with
        | null => simp [encodeJson] at hlen ⊢; simp [parseStep]
        | bool b => simp [encodeJson] at hlen ⊢; simp [parseStep]
        | num k => simp [encodeJson] at hlen ⊢; simp [parseStep]
        | str s => simp [encodeJson] at hlen ⊢; simp [parseStep]
        | arr items =>
          have hlen' : (encodeItems items).length + 1 ≤ m := by
            simp [encodeJson] at hlen; omega
          have hIH := (IH m (Nat.lt_succ_self m)).2.1 items rest hlen'
          simp [encodeJson, parseStep, List.append_assoc, hIH]
        | obj fields =>
          have hlen' : (encodeFields fields).length + 1 ≤ m := by
            simp [encodeJson] at hlen; omega
          have hIH := (IH m (Nat.lt_succ_self m)).2.2 fields rest hlen'
          simp [encodeJson, parseStep, List.append_assoc, hIH]
    · intro xs rest hlen
      cases n with
      | zero => omega
      | succ m =>
        cases xs with
        | nil => simp [encodeItems, parseStep]
        | cons x xs' =>
          obtain ⟨t, ts0, hx, hne, -⟩ := encodeJson_head x
          have hx1 : 1 ≤ (encodeJson x).length := encodeJson_length_pos x
          have hlen1 : (encodeJson x).length ≤ m := by
            simp [encodeItems] at hlen
            have := Nat.zero_le (encodeItems xs').length
            omega
          have hlen2 : (encodeItems xs').length + 1 ≤ m := by
            simp [encodeItems] at hlen
            omega
          have hv := (IH m (Nat.lt_succ_self m)).1 x
            (encodeItems xs' ++ Tok.arrClose :: rest) hlen1
          have hitems := (IH m (Nat.lt_succ_self m)).2.1 xs' rest hlen2
          rw [encodeItems, List.append_assoc, hx]
          rw [hx] at hv
          simp only [List.cons_append] at hv ⊢
          rw [parseStep, if_neg hne, hv]
          simp [hitems]
    · intro fs rest hlen
      cases n with
      | zero => omega
      | succ m =>
        cases fs with
        | nil => simp [encodeFields, parseStep]
        | cons kv fs' =>
          obtain ⟨k, v⟩ := kv
          have hv1 : 1 ≤ (encodeJson v).length := encodeJson_length_pos v
          have hlen1 : (encodeJson v).length ≤ m := by
            simp [encodeFields] at hlen
            have := Nat.zero_le (encodeFields fs').length
            omega
          have hlen2 : (encodeFields fs').length + 1 ≤ m := by
            simp [encodeFields] at hlen
            omega
          have hv := (IH m (Nat.lt_succ_self m)).1 v
            (encodeFields fs' ++ Tok.objClose :: rest) hlen1
          have hfields := (IH m (Nat.lt_succ_self m)).2.2 fs' rest hlen2
          rw [encodeFields]
          simp only [List.cons_append, List.append_assoc]
          rw [parseStep]
          have hne : Tok.tStr k ≠ Tok.objClose := by simp
          rw [if_neg hne]
          simp only [List.append_assoc] at hv
          rw [hv]
          simp [hfields]

theorem decode_encode (x : Json) : decodeJson (encodeJson x) = some x := by
  have h := (parseStep_encode (encodeJson x).length).1 x []
    (Nat.le_refl (encodeJson x).length)
  rw [List.append_nil] at h
  rw [decodeJson, h]

/-! ### Snapshot store (`create_snapshot` / `restore_snapshot` in `lib.rs`)

`GLOBAL_STATE` is the store root; `SNAPSHOTS` is a map from snapshot id to
the serialised byte buffer, modelled as an association list updated with
`DashMap::insert` semantics (replace the entry if the key exists, else
append).  Snapshot ids are fresh uuids in the source; here the id is a
parameter. -/

/-- The global engine state relevant to snapshots: the store root and the
snapshot map. -/
structure EngineState where
  global_state : Json
  snapshots : List (String × List Tok)

/-- `DashMap::get` on the snapshot map. -/
def lookupSnap : List (String × List Tok) → String → Option (List Tok)
  | [], _ => none
  | (k, v) :: rest, id => if k = id then some v else lookupSnap rest id

/-- `DashMap::insert` on the snapshot map. -/
def insertSnap : List (String × List Tok) → String → List Tok → List (String × List Tok)
  | [], id, b => [(id, b)]
  | (k, v) :: rest, id, b =>
    if k = id then (id, b) :: rest else (k, v) :: insertSnap rest id b

/-- `create_snapshot` (`lib.rs:360-371`): serialise the current root and
store the bytes under the snapshot id. -/
def create_snapshot (id : String) (e : EngineState) : EngineState :=
  { e with snapshots := insertSnap e.snapshots id (encodeJson e.global_state) }

/-- `restore_snapshot` (`lib.rs:373-388`): look the snapshot up,
deserialise it, install it as the new root, and return it; errors on a
missing id or a deserialisation failure. -/
def restore_snapshot (id : String) (e : EngineState) : Except String (EngineState × Json) :=
  match lookupSnap e.snapshots id with
  | some bytes =>
    match decodeJson bytes with
    | some v => Except.ok ({ e with global_state := v }, v)
    | none => Except.error "Failed to deserialize snapshot"
  | none => Except.error "Snapshot not found"

theorem lookupSnap_insertSnap (s : List (String × List Tok)) (id : String) (b : List Tok) :
    lookupSnap (insertSnap s id b) id = some b := by
  induction s with
  | nil => simp [insertSnap, lookupSnap]
  | cons kv rest ih =>
    obtain ⟨k, v⟩ := kv
    by_cases h : k = id
    · simp [insertSnap, lookupSnap, h]
    · simp [insertSnap, lookupSnap, h, ih]

/-- C1: Snapshot round-trip — creating a snapshot while the root is `x` and
then restoring that snapshot yields a root equal to `x`, for every root
value and every prior snapshot map. -/
theorem restore_create_snapshot_roundtrip (x : Json) (snaps : List (String × List Tok))
    (id : String) :
    restore_snapshot id (create_snapshot id ⟨x, snaps⟩) =
      Except.ok (⟨x, insertSnap snaps id (encodeJson x)⟩, x) := by
  rw [restore_snapshot]
  simp only [create_snapshot, lookupSnap_insertSnap, decode_encode]

/-! ### Path updates (`set_nested_value_fast` / `apply_update` in `lib.rs`)

Paths are embedded as segment lists (the source splits the dotted string
on `.`; the spec's data model defines a path as the sequence of its
segments).  `set_nested_value_fast` descends from the root, auto-creating
empty objects for missing intermediate keys.  When an intermediate node is
not an object, `as_object_mut()` returns `None` and the source hits
`unwrap_or_else(|| unreachable!())`: a panic, modelled as `none`.  When
only the final node is not an object, the `if let` at the leaf silently
skips the insertion and the (cloned) root is returned unchanged. -/

/-- `serde_json::Map::insert`: replace in place if the key exists, else
append. -/
def insertField : List (String × Json) → String → Json → List (String × Json)
  | [], k, v => [(k, v)]
  | (k', v') :: rest, k, v =>
    if k' = k then (k, v) :: rest else (k', v') :: insertField rest k v

/-- `serde_json::Map::get` / `contains_key`. -/
def lookupField : List (String × Json) → String → Option Json
  | [], _ => none
  | (k', v') :: rest, k => if k' = k then some v' else lookupField rest k

/-- `set_nested_value_fast` (`lib.rs:131-156`).  `none` models the
`unreachable!()` panic on an intermediate non-object node. -/
def set_nested_value_fast : Json → List String → Json → Option Json
  | _, [], v => some v
  | root, [k], v =>
    match root with
    | Json.obj fields => some (Json.obj (insertField fields k v))
    | _ => some root
  | root, k1 :: k2 :: rest, v =>
    match root with
    | Json.obj fields =>
      let child := (lookupField fields k1).getD (Json.obj [])
      match set_nested_value_fast child (k2 :: rest) v with
      | some child' => some (Json.obj (insertField fields k1 child'))
      | none => none
    | _ => none

/-- `get_nested_value_fast` (`lib.rs:159-175`). -/
def get_nested_value_fast : Json → List String → Option Json
  | root, [] => some root
  | root, k :: rest =>
    match root with
    | Json.obj fields =>
      match lookupField fields k with
      | some child => get_nested_value_fast child rest
      | none => none
    | _ => none

/-- `apply_update` (`lib.rs:178-192`): one RCU commit of a single path
update; the batch worker calls this once per queued update.  `none` is the
worker panicking inside `set_nested_value_fast`. -/
def apply_update (st : Json) (path : List String) (v : Json) : Option Json :=
  set_nested_value_fast st path v

/-- The sequence of roots committed to `GLOBAL_STATE` while the batch
worker processes a `MultiUpdate` command (`spawn_batch_worker`,
`lib.rs:87-103`): each queued update is applied and committed
individually.  Every element of this list is installed as the store root
and is observable by concurrent readers and subscribers. -/
def batch_commit_trace : Json → List (List String × Json) → List Json
  | _, [] => []
  | st, (p, v) :: rest =>
    match apply_update st p v with
    | some st' => st' :: batch_commit_trace st' rest
    | none => []

/-- C2: Batch atomicity fails — executing the batch
`[("a", 1), ("b", 2)]` against the pre-commit root `{}` commits two
separate roots to `GLOBAL_STATE`; the first committed root holds the
first update but not the second, so an observer of the store root sees a
proper subset of the batch's updates. -/
theorem batch_commit_not_atomic :
    batch_commit_trace (Json.obj []) [(["a"], Json.num 1), (["b"], Json.num 2)] =
      [Json.obj [("a", Json.num 1)],
       Json.obj [("a", Json.num 1), ("b", Json.num 2)]] ∧
    get_nested_value_fast (Json.obj [("a", Json.num 1)]) ["a"] = some (Json.num 1) ∧
    get_nested_value_fast (Json.obj [("a", Json.num 1)]) ["b"] = none :=
  ⟨rfl, rfl, rfl⟩

/-- C3: Update error behaviour fails — with root `{"a": 1}`, updating path
`a.b.c` hits an intermediate non-mapping node and the code panics via
`unwrap_or_else(|| unreachable!())` (modelled as `none`) instead of
returning a "path conflict" error, and updating path `a.b` (non-mapping at
the last descent step) silently returns the root unchanged instead of
failing. -/
theorem update_path_conflict_panics :
    set_nested_value_fast (Json.obj [("a", Json.num 1)]) ["a", "b", "c"] (Json.num 2) =
      none ∧
    set_nested_value_fast (Json.obj [("a", Json.num 1)]) ["a", "b"] (Json.num 2) =
      some (Json.obj [("a", Json.num 1)]) :=
  ⟨rfl, rfl⟩

/-! ### Subscription registry (`subscribe` / `unsubscribe` in `lib.rs`)

`SUBSCRIPTIONS` maps a store key to its callback list; the source only
ever uses the key "global".  Callbacks are opaque host functions,
modelled by numeric handles.  `subscribe` returns a fresh id string but
never associates it with the callback; `unsubscribe` calls
`SUBSCRIPTIONS.clear()`, dropping every registration in the whole map. -/

/-- `DashMap::get` on the subscription map. -/
def subsGet : List (String × List Nat) → String → Option (List Nat)
  | [], _ => none
  | (k, v) :: rest, key => if k = key then some v else subsGet rest key

/-- `DashMap::insert` on the subscription map. -/
def subsInsert : List (String × List Nat) → String → List Nat → List (String × List Nat)
  | [], key, v => [(key, v)]
  | (k, v') :: rest, key, v =>
    if k = key then (key, v) :: rest else (k, v') :: subsInsert rest key v

/-- `subscribe` (`lib.rs:298-315`): copy the current "global" callback
list, append the new callback, and re-insert.  The returned subscription
id is not stored anywhere. -/
def subscribe (subs : List (String × List Nat)) (cb : Nat) : List (String × List Nat) :=
  subsInsert subs "global" ((subsGet subs "global").getD [] ++ [cb])

/-- `unsubscribe` (`lib.rs:317-321`): the source executes
`SUBSCRIPTIONS.clear()`, ignoring the id. -/
def unsubscribe (_subs : List (String × List Nat)) (_id : String) : List (String × List Nat) :=
  []

/-- The callbacks that a fan-out invokes (`notify_subscribers_async`,
`lib.rs:405-420`): the current "global" callback list. -/
def notify_targets (subs : List (String × List Nat)) : List Nat :=
  (subsGet subs "global").getD []

/-- C6: Unsubscribe frame property fails — after registering callbacks 1
and 2, unsubscribing any single subscription id removes every
registration: callback 2 is no longer registered and no longer receives
fan-out notifications, violating the frame property.  (Shown for the
concrete id "sub_1" and, in general, for every registry and id.) -/
theorem unsubscribe_clears_all_subscribers :
    notify_targets (subscribe (subscribe [] 1) 2) = [1, 2] ∧
    notify_targets (unsubscribe (subscribe (subscribe [] 1) 2) "sub_1") = [] ∧
    (∀ subs id, unsubscribe subs id = []) :=
  ⟨rfl, rfl, fun _ _ => rfl⟩

/-! ### Memory pool (`memory.rs`)

`MemoryPool` keeps a block list, a free-block index list, the pool size
and the used size.  Timestamps (`DateTime<Utc>`) are modelled as integer
milliseconds; every operation that reads the clock takes `now` as a
parameter.  `chrono::Duration::minutes(30)` is 1 800 000 ms. -/

/-- A block of the arena (`MemoryBlock`, `memory.rs:81-87`). -/
structure MemoryBlock where
  offset : Nat
  size : Nat
  is_free : Bool
  allocated_at : Int
deriving DecidableEq

/-- The per-container pool (`MemoryPool`, `memory.rs:72-79`). -/
structure MemoryPool where
  pool_id : String
  total_size : Nat
  used_size : Nat
  blocks : List MemoryBlock
  free_blocks : List Nat
deriving DecidableEq

/-- `MemoryPool::new` (`memory.rs:89-105`): one free block covering the
whole pool. -/
def MemoryPool.new (pool_id : String) (size : Nat) (now : Int) : MemoryPool :=
  { pool_id := pool_id, total_size := size, used_size := 0,
    blocks := [{ offset := 0, size := size, is_free := true, allocated_at := now }],
    free_blocks := [0] }

/-- First-fit scan of `allocate` (`memory.rs:109-147`): walk the
`free_blocks` index list in order, skip out-of-range indices, and pick the
first free block large enough. -/
def findFit (blocks : List MemoryBlock) (size : Nat) : List Nat → Option Nat
  | [] => none
  | idx :: rest =>
    match blocks[idx]? with
    | some b => if b.is_free && size ≤ b.size then some idx else findFit blocks size rest
    | none => findFit blocks size rest

/-- `MemoryPool::allocate` (`memory.rs:107-151`): first-fit, split the
chosen block when it is larger than requested (remainder appended at the
end of the block list), mark the block allocated, bump `used_size`, and
drop the index from `free_blocks`. -/
def MemoryPool.allocate (p : MemoryPool) (size : Nat) (now : Int) :
    Except String (Nat × MemoryPool) :=
  match findFit p.blocks size p.free_blocks with
  | none => Except.error "Out of memory"
  | some idx =>
    match p.blocks[idx]? with
    | none => Except.error "Out of memory"
    | some b =>
      let withSplit :=
        if size < b.size then
          { p with
            blocks := (p.blocks.set idx { b with size := size }) ++
              [{ offset := b.offset + size, size := b.size - size,
                 is_free := true, allocated_at := now }],
            free_blocks := p.free_blocks ++ [p.blocks.length] }
        else p
      Except.ok (b.offset,
        { withSplit with
          blocks := withSplit.blocks.set idx
            { offset := b.offset, size := size, is_free := false, allocated_at := now },
          used_size := withSplit.used_size + size,
          free_blocks := withSplit.free_blocks.filter (fun i => i ≠ idx) })

/-- The pair search of `coalesce` (`memory.rs:178-211`): the first pair
`(i, j)` in lexicographic scan order with `i < j`, both blocks free, and
block `i` ending exactly where block `j` starts. -/
def findMergePair (blocks : List MemoryBlock) : Option (Nat × Nat) :=
  (((List.range blocks.length).map (fun i =>
      ((List.range blocks.length).filter (fun j => i < j)).map (fun j => (i, j)))).flatten).find?
    (fun ij =>
      match blocks[ij.1]?, blocks[ij.2]? with
      | some bi, some bj => bi.is_free && bj.is_free && (bi.offset + bi.size == bj.offset)
      | _, _ => false)

/-- One merge of `coalesce` (`memory.rs:192-210`): grow block `i` by the
size of block `j`, remove block `j`, drop index `j` from `free_blocks`
and shift the indices above it down by one. -/
def coalesceStep (p : MemoryPool) : Option MemoryPool :=
  match findMergePair p.blocks with
  | none => none
  | some (i, j) =>
    match p.blocks[i]?, p.blocks[j]? with
    | some bi, some bj =>
      some { p with
        blocks := (p.blocks.set i { bi with size := bi.size + bj.size }).eraseIdx j,
        free_blocks := (p.free_blocks.filter (fun idx => idx ≠ j)).map
          (fun idx => if j < idx then idx - 1 else idx) }
    | _, _ => none

/-- The `while changed` loop of `coalesce` (`memory.rs:173-218`); each
merge removes one block, so `blocks.length` iterations always reach the
fixpoint. -/
def coalesceLoop : Nat → MemoryPool → MemoryPool
  | 0, p => p
  | fuel + 1, p =>
    match coalesceStep p with
    | none => p
    | some p' => coalesceLoop fuel p'

/-- `MemoryPool::coalesce` (`memory.rs:173-218`). -/
def MemoryPool.coalesce (p : MemoryPool) : MemoryPool :=
  coalesceLoop p.blocks.length p

/-- The block search of `deallocate` (`memory.rs:155`): first index whose
block sits at `offset` and is not free. -/
def findDeallocIdx (blocks : List MemoryBlock) (offset : Nat) : Option Nat :=
  (List.range blocks.length).find? (fun i =>
    match blocks[i]? with
    | some b => b.offset == offset && !b.is_free
    | none => false)

/-- `MemoryPool::deallocate` (`memory.rs:153-170`): mark the block at
`offset` free, shrink `used_size` (saturating), push the index onto
`free_blocks`, and coalesce; errors with "Invalid memory address" when no
allocated block sits at `offset`, leaving the pool untouched. -/
def MemoryPool.deallocate (p : MemoryPool) (offset : Nat) : Except String MemoryPool :=
  match findDeallocIdx p.blocks offset with
  | none => Except.error "Invalid memory address"
  | some idx =>
    match p.blocks[idx]? with
    | none => Except.error "Invalid memory address"
    | some b =>
      Except.ok (MemoryPool.coalesce
        { p with
          blocks := p.blocks.set idx { b with is_free := true },
          used_size := p.used_size - b.size,
          free_blocks := p.free_blocks ++ [idx] })

/-- `MemoryPool::garbage_collect` (`memory.rs:220-244`): drop every free
block older than the 30-minute cutoff, rebuild `free_blocks`, coalesce,
and report how many blocks disappeared. -/
def MemoryPool.garbage_collect (p : MemoryPool) (now : Int) : Nat × MemoryPool :=
  let cutoff := now - 1800000
  let kept := p.blocks.filter (fun b => !b.is_free || decide (cutoff < b.allocated_at))
  let free1 := (List.range kept.length).filter (fun i =>
    match kept[i]? with
    | some b => b.is_free
    | none => false)
  let p2 := MemoryPool.coalesce { p with blocks := kept, free_blocks := free1 }
  (p.blocks.length - p2.blocks.length, p2)

/-- Sum of all block sizes of a pool's block list. -/
def sumSizes (blocks : List MemoryBlock) : Nat :=
  (blocks.map (fun b => b.size)).sum

/-- Sum of the sizes of the non-free blocks. -/
def sumUsedSizes (blocks : List MemoryBlock) : Nat :=
  ((blocks.filter (fun b => !b.is_free)).map (fun b => b.size)).sum

/-- The data-model invariant of §3 of the spec: the blocks partition
`[0, total_size)` (their sizes sum to `total_size`) and `used_size` is
the sum of the non-free block sizes. -/
def poolInvariant (p : MemoryPool) : Prop :=
  sumSizes p.blocks = p.total_size ∧ p.used_size = sumUsedSizes p.blocks

/-- The pool of size 100 after one 40-byte allocation at time 0. -/
def c4Pool : MemoryPool where
  pool_id := "c1"
  total_size := 100
  used_size := 40
  blocks := [{ offset := 0, size := 40, is_free := false, allocated_at := 0 },
             { offset := 40, size := 60, is_free := true, allocated_at := 0 }]
  free_blocks := [1]

/-- C4: Memory pool partition invariant fails under garbage collection —
on a pool of size 100 with one 40-byte allocation, a garbage-collect run
whose 30-minute cutoff has passed removes the aged free block `(40, 60)`
from the block list: the block sizes then sum to 40 while `total_size` is
100, so the blocks no longer partition `[0, total_size)`.  (The invariant
does hold right after the allocation.) -/
theorem garbage_collect_breaks_partition :
    ∃ p1 : MemoryPool,
      (MemoryPool.new "c1" 100 0).allocate 40 0 = Except.ok (0, p1) ∧
      poolInvariant p1 ∧
      (p1.garbage_collect 10000000).2.total_size = 100 ∧
      sumSizes (p1.garbage_collect 10000000).2.blocks = 40 ∧
      ¬ poolInvariant (p1.garbage_collect 10000000).2 := by
  refine ⟨c4Pool, rfl, ⟨rfl, rfl⟩, rfl, rfl, ?_⟩
  intro h
  exact absurd h.1 (by decide)

/-- The operation sequence exhibiting the missed coalesce: three
allocations, a deallocation, two further allocations that leave the block
list out of offset order, and a final deallocation whose left free
neighbour sits later in the list than its right free neighbour. -/
def demoOps (p : MemoryPool) : Except String MemoryPool := do
  let (_, p1) ← p.allocate 10 0
  let (_, p2) ← p1.allocate 10 0
  let (_, p3) ← p2.allocate 10 0
  let p4 ← p3.deallocate 10
  let (_, p5) ← p4.allocate 5 0
  let (_, p6) ← p5.allocate 5 0
  p6.deallocate 20

/-- The pool `demoOps` ends in: blocks at offsets 0, 10, 30 allocated,
and free blocks `(35, 65)`, `(15, 5)` and `(20, 10)` with the `(15, 5)`
block listed after the `(20, 10)` block. -/
def c7Pool : MemoryPool where
  pool_id := "c2"
  total_size := 100
  used_size := 20
  blocks := [{ offset := 0, size := 10, is_free := false, allocated_at := 0 },
             { offset := 10, size := 5, is_free := false, allocated_at := 0 },
             { offset := 20, size := 10, is_free := true, allocated_at := 0 },
             { offset := 30, size := 5, is_free := false, allocated_at := 0 },
             { offset := 35, size := 65, is_free := true, allocated_at := 0 },
             { offset := 15, size := 5, is_free := true, allocated_at := 0 }]
  free_blocks := [4, 5, 2]

/-- C7: Coalescing completeness fails — after the successful
`deallocate(20)` ending `demoOps`, the pool still holds the two free
blocks `(15, 5)` and `(20, 10)` with `15 + 5 = 20`: they are physically
adjacent, but `coalesce` only merges a pair whose left block appears
before its right block in the block list, and here the left block (index
5) appears after the right block (index 2). -/
theorem coalesce_misses_adjacent_free_blocks :
    ∃ pf : MemoryPool, demoOps (MemoryPool.new "c2" 100 0) = Except.ok pf ∧
      ∃ b1 ∈ pf.blocks, ∃ b2 ∈ pf.blocks,
        b1.is_free = true ∧ b2.is_free = true ∧ b1.offset + b1.size = b2.offset := by
  refine ⟨c7Pool, rfl,
    { offset := 15, size := 5, is_free := true, allocated_at := 0 }, by decide,
    { offset := 20, size := 10, is_free := true, allocated_at := 0 }, by decide,
    rfl, rfl, rfl⟩

/-! ### Memory manager (`MemoryManager` in `memory.rs`) -/

/-- Per-container allocation statistics (`MemoryStats`,
`memory.rs:6-15`); `last_gc` and the GC counter are irrelevant to the
claims under study. -/
structure MemoryStats where
  used : Nat
  allocated : Nat
  peak : Nat
  allocations : Nat
  deallocations : Nat
deriving DecidableEq

/-- `MemoryStats::record_deallocation` (`memory.rs:45-48`). -/
def MemoryStats.record_deallocation (s : MemoryStats) (size : Nat) : MemoryStats :=
  { s with deallocations := s.deallocations + 1, used := s.used - size }

/-- The manager state relevant to `deallocate_block` (`MemoryManager`,
`memory.rs:290-298`). -/
structure MemoryManager where
  container_pools : List (String × MemoryPool)
  container_stats : List (String × MemoryStats)
deriving DecidableEq

/-- `HashMap::get` on the pool map. -/
def lookupPool : List (String × MemoryPool) → String → Option MemoryPool
  | [], _ => none
  | (k, v) :: rest, id => if k = id then some v else lookupPool rest id

/-- In-place update of the pool map entry (the source mutates the pool
behind `get_mut`). -/
def updatePool : List (String × MemoryPool) → String → MemoryPool → List (String × MemoryPool)
  | [], _, _ => []
  | (k, v) :: rest, id, p => if k = id then (k, p) :: rest else (k, v) :: updatePool rest id p

/-- `HashMap::get` on the stats map. -/
def lookupStats : List (String × MemoryStats) → String → Option MemoryStats
  | [], _ => none
  | (k, v) :: rest, id => if k = id then some v else lookupStats rest id

/-- In-place update of the stats map entry. -/
def updateStats : List (String × MemoryStats) → String → MemoryStats → List (String × MemoryStats)
  | [], _, _ => []
  | (k, v) :: rest, id, s => if k = id then (k, s) :: rest else (k, v) :: updateStats rest id s

/-- `MemoryManager::deallocate_block` (`memory.rs:367-387`): look the
pool up, compute the size of the allocated block at `offset` (0 when
absent), delegate to `MemoryPool::deallocate` — whose error propagates
via `?` before the statistics update — then record the deallocation. -/
def MemoryManager.deallocate_block (m : MemoryManager) (id : String) (offset : Nat) :
    Except String Unit × MemoryManager :=
  match lookupPool m.container_pools id with
  | none => (Except.error "Container not found", m)
  | some pool =>
    let block_size :=
      ((pool.blocks.find? (fun b => b.offset == offset && !b.is_free)).map
        (fun b => b.size)).getD 0
    match pool.deallocate offset with
    | Except.error e => (Except.error e, m)
    | Except.ok pool' =>
      let m1 := { m with container_pools := updatePool m.container_pools id pool' }
      match lookupStats m1.container_stats id with
      | some st =>
        let st2 := st.record_deallocation block_size
        (Except.ok (), { m1 with container_stats := updateStats m1.container_stats id st2 })
      | none => (Except.ok (), m1)

theorem findDeallocIdx_eq_none (blocks : List MemoryBlock) (offset : Nat)
    (h : ∀ b ∈ blocks, ¬(b.offset = offset ∧ b.is_free = false)) :
    findDeallocIdx blocks offset = none := by
  rw [findDeallocIdx, List.find?_eq_none]
  intro i hi
  match hb : blocks[i]? with
  | none => simp
  | some b =>
    have hmem : b ∈ blocks := by
      obtain ⟨hlt, rfl⟩ := List.getElem?_eq_some.mp hb
      exact List.getElem_mem hlt
    have := h b hmem
    simp only [Bool.and_eq_true, beq_iff_eq, Bool.not_eq_true']
    intro hcontra
    exact this ⟨hcontra.1, hcontra.2⟩

/-- C10: deallocate_block error atomicity — when the container's pool has
no allocated (non-free) block at the given offset, the manager-level
`deallocate_block` returns the "Invalid memory address" error and the
manager (pool map, every pool's block and free lists and `used_size`,
and the per-container statistics) is returned unchanged. -/
theorem deallocate_block_error_atomicity (m : MemoryManager) (id : String) (offset : Nat)
    (pool : MemoryPool) (hpool : lookupPool m.container_pools id = some pool)
    (hnone : ∀ b ∈ pool.blocks, ¬(b.offset = offset ∧ b.is_free = false)) :
    m.deallocate_block id offset = (Except.error "Invalid memory address", m) := by
  have hfind : findDeallocIdx pool.blocks offset = none :=
    findDeallocIdx_eq_none pool.blocks offset hnone
  simp only [MemoryManager.deallocate_block, hpool, MemoryPool.deallocate, hfind]

/-- Witness for C10 at a concrete manager: a fresh pool of size 100 whose
only block is free, so offset 0 carries no allocated block. -/
theorem deallocate_block_error_atomicity_witness :
    (lookupPool [("x", MemoryPool.new "x" 100 0)] "x" = some (MemoryPool.new "x" 100 0)) ∧
    (∀ b ∈ (MemoryPool.new "x" 100 0).blocks, ¬(b.offset = 0 ∧ b.is_free = false)) ∧
    MemoryManager.deallocate_block
      { container_pools := [("x", MemoryPool.new "x" 100 0)],
        container_stats := [("x", { used := 0, allocated := 100, peak := 0,
                                    allocations := 0, deallocations := 0 })] } "x" 0 =
      (Except.error "Invalid memory address",
       { container_pools := [("x", MemoryPool.new "x" 100 0)],
         container_stats := [("x", { used := 0, allocated := 100, peak := 0,
                                     allocations := 0, deallocations := 0 })] }) :=
  ⟨by decide, by decide,
    deallocate_block_error_atomicity _ "x" 0 (MemoryPool.new "x" 100 0)
      (by decide) (by decide)⟩

/-! ### Security gate (`security.rs`)

`HashSet<String>` fields are modelled as lists with membership testing;
only the policy fields exercised by the claims are carried. -/

/-- `SecurityPolicy` (`security.rs:7-19`), restricted to the function
gating fields. -/
structure SecurityPolicy where
  allowed_functions : List String
  blocked_functions : List String

/-- `SecurityPolicy::is_function_allowed` (`security.rs:73-87`): blocked
names are denied; otherwise an empty allowed set accepts everything;
otherwise membership in the allowed set decides. -/
def SecurityPolicy.is_function_allowed (p : SecurityPolicy) (function_name : String) : Bool :=
  if p.blocked_functions.contains function_name then false
  else if p.allowed_functions.isEmpty then true
  else p.allowed_functions.contains function_name

/-- `SecurityContext::check_function_access` (`security.rs:196-205`),
which `SecurityManager::validate_function_call` consults first and turns
into the "Function call denied" error (`security.rs:316-347`). -/
def check_function_access (p : SecurityPolicy) (function_name : String) :
    Except String Unit :=
  if p.is_function_allowed function_name then Except.ok ()
  else Except.error "Function call denied"

/-- C5: Function-call gating — for every policy and name, the call is
accepted exactly when the name is not blocked and either the allowed set
is empty or the name is a member of it; a blocked name is always denied
(in particular a name in both sets), and `check_function_access` turns
exactly the denied cases into the error the call validator reports. -/
theorem is_function_allowed_spec (p : SecurityPolicy) (f : String) :
    (p.is_function_allowed f = true ↔
      f ∉ p.blocked_functions ∧ (p.allowed_functions = [] ∨ f ∈ p.allowed_functions)) ∧
    (f ∈ p.blocked_functions → p.is_function_allowed f = false) ∧
    (check_function_access p f = Except.error "Function call denied" ↔
      p.is_function_allowed f = false) := by
  have hb : p.blocked_functions.contains f = true ↔ f ∈ p.blocked_functions :=
    List.elem_iff
  have ha : p.allowed_functions.contains f = true ↔ f ∈ p.allowed_functions :=
    List.elem_iff
  refine ⟨?_, ?_, ?_⟩
  · rw [SecurityPolicy.is_function_allowed]
    by_cases h1 : f ∈ p.blocked_functions
    · rw [if_pos (hb.mpr h1)]
      simp [h1]
    · have h1' : ¬p.blocked_functions.contains f = true := fun hc => h1 (hb.mp hc)
      rw [if_neg h1']
      by_cases h2 : p.allowed_functions.isEmpty
      · rw [if_pos h2]
        have hae : p.allowed_functions = [] := List.isEmpty_iff.mp h2
        simp [h1, hae]
      · rw [if_neg h2]
        have hne : p.allowed_functions ≠ [] := fun h => h2 (by simp [h])
        rw [ha]
        simp [h1, hne]
  · intro hf
    rw [SecurityPolicy.is_function_allowed, if_pos (hb.mpr hf)]
  · rw [check_function_access]
    by_cases h : p.is_function_allowed f
    · simp [h]
    · rw [Bool.not_eq_true] at h
      simp [h]

/-- Witness for C5 at the concrete policies of scenario S6 of the spec:
with allowed = {increment}, "decrement" is denied and "increment" is
accepted; a name in both sets is denied. -/
theorem is_function_allowed_spec_witness :
    ({ allowed_functions := ["increment"], blocked_functions := [] } :
      SecurityPolicy).is_function_allowed "decrement" = false ∧
    ({ allowed_functions := ["increment"], blocked_functions := [] } :
      SecurityPolicy).is_function_allowed "increment" = true ∧
    ({ allowed_functions := ["increment"], blocked_functions := ["increment"] } :
      SecurityPolicy).is_function_allowed "increment" = false := by
  refine ⟨?_, ?_, ?_⟩
  · have h := (is_function_allowed_spec
      { allowed_functions := ["increment"], blocked_functions := [] } "decrement").1
    have : ¬(({ allowed_functions := ["increment"], blocked_functions := [] } :
        SecurityPolicy).is_function_allowed "decrement" = true) := by
      intro htrue
      have := h.mp htrue
      rcases this.2 with h1 | h1
      · exact absurd h1 (by decide)
      · exact absurd h1 (by decide)
    exact Bool.not_eq_true _ |>.mp this
  · exact (is_function_allowed_spec
      { allowed_functions := ["increment"], blocked_functions := [] } "increment").1.mpr
      ⟨by decide, Or.inr (by decide)⟩
  · exact (is_function_allowed_spec
      { allowed_functions := ["increment"], blocked_functions := ["increment"] }
      "increment").2.1 (by decide)

/-! ### Metrics time-series (`metrics.rs`)

Timestamps are integer milliseconds; `TimeSeries::new(max, hours)` sets
`retention_duration = Duration::hours(hours)` whose `num_milliseconds`
value is carried directly as `retention_ms`.  Sample values are
irrelevant to the bound claims and modelled as integers. -/

/-- `MetricSample` (`metrics.rs:82-87`), metadata elided. -/
structure MetricSample where
  timestamp : Int
  value : Int
deriving DecidableEq

/-- `TimeSeries` (`metrics.rs:104-109`); the deque front is the list
head. -/
structure TimeSeries where
  samples : List MetricSample
  max_samples : Nat
  retention_ms : Int

/-- The `while samples.len() > max_samples { pop_front }` loop of
`add_sample` (`metrics.rs:123-126`). -/
def trimToMax (maxS : Nat) : List MetricSample → List MetricSample
  | [] => []
  | x :: rest => if maxS < (x :: rest).length then trimToMax maxS rest else x :: rest

/-- The front-popping loop of `cleanup_old_samples` (`metrics.rs:132-142`):
pop from the front while the front sample predates the cutoff, stopping at
the first sample that does not. -/
def dropOldFront (cutoff : Int) : List MetricSample → List MetricSample
  | [] => []
  | s :: rest => if s.timestamp < cutoff then dropOldFront cutoff rest else s :: rest

/-- `TimeSeries::cleanup_old_samples` (`metrics.rs:132-142`); `now` is
`get_current_time()`. -/
def TimeSeries.cleanup_old_samples (ts : TimeSeries) (now : Int) : TimeSeries :=
  { ts with samples := dropOldFront (now - ts.retention_ms) ts.samples }

/-- `TimeSeries::add_sample` (`metrics.rs:120-130`): push at the back,
enforce the sample-count bound, then clean by retention. -/
def TimeSeries.add_sample (ts : TimeSeries) (s : MetricSample) (now : Int) : TimeSeries :=
  TimeSeries.cleanup_old_samples
    { ts with samples := trimToMax ts.max_samples (ts.samples ++ [s]) } now

theorem trimToMax_length (maxS : Nat) (l : List MetricSample) :
    (trimToMax maxS l).length ≤ maxS := by
  induction l with
  | nil => simp [trimToMax]
  | cons x rest ih =>
    rw [trimToMax]
    by_cases h : maxS < rest.length + 1
    · simpa [h] using ih
    · simp only [List.length_cons, h, if_false]
      omega

theorem trimToMax_sublist (maxS : Nat) (l : List MetricSample) :
    (trimToMax maxS l).Sublist l := by
  induction l with
  | nil => simp [trimToMax]
  | cons x rest ih =>
    rw [trimToMax]
    by_cases h : maxS < rest.length + 1
    · simp only [List.length_cons, h, if_true]
      exact ih.trans (List.sublist_cons_self x rest)
    · simp [h]

theorem dropOldFront_bound (cutoff : Int) (l : List MetricSample)
    (hsorted : List.Pairwise (fun a b => a.timestamp ≤ b.timestamp) l) :
    ∀ x ∈ dropOldFront cutoff l, cutoff ≤ x.timestamp := by
  induction l with
  | nil => simp [dropOldFront]
  | cons s rest ih =>
    rw [dropOldFront]
    by_cases h : s.timestamp < cutoff
    · simp only [h, if_true]
      exact ih (List.Pairwise.of_cons hsorted)
    · simp only [h, if_false]
      intro x hx
      rcases List.mem_cons.mp hx with hx | hx
      · subst hx; omega
      · have := (List.pairwise_cons.mp hsorted).1 x hx
        omega

theorem dropOldFront_sublist (cutoff : Int) (l : List MetricSample) :
    (dropOldFront cutoff l).Sublist l := by
  induction l with
  | nil => simp [dropOldFront]
  | cons s rest ih =>
    rw [dropOldFront]
    by_cases h : s.timestamp < cutoff
    · simp only [h, if_true]
      exact ih.trans (List.sublist_cons_self s rest)
    · simp [h]

/-- C8: TimeSeries bounds — for a series whose samples are stamped by the
monotone clock (timestamps nondecreasing and at most `now`, as every
in-repo caller produces via `MetricSample::new`), after an `add_sample`
of the freshly stamped sample the series holds at most `max_samples`
samples and no sample older than the retention window. -/
theorem add_sample_bounds (ts : TimeSeries) (s : MetricSample) (now : Int)
    (hsorted : List.Pairwise (fun a b => a.timestamp ≤ b.timestamp) ts.samples)
    (hle : ∀ x ∈ ts.samples, x.timestamp ≤ now)
    (hnow : s.timestamp = now) :
    (ts.add_sample s now).samples.length ≤ ts.max_samples ∧
    ∀ x ∈ (ts.add_sample s now).samples, now - ts.retention_ms ≤ x.timestamp := by
  have hsorted' : List.Pairwise (fun a b => a.timestamp ≤ b.timestamp) (ts.samples ++ [s]) := by
    rw [List.pairwise_append]
    refine ⟨hsorted, List.pairwise_singleton _ _, ?_⟩
    intro a ha b hb
    rw [List.mem_singleton] at hb
    subst hb
    rw [hnow]
    exact hle a ha
  have htrim : List.Pairwise (fun a b => a.timestamp ≤ b.timestamp)
      (trimToMax ts.max_samples (ts.samples ++ [s])) :=
    hsorted'.sublist (trimToMax_sublist _ _)
  constructor
  · have h1 := (dropOldFront_sublist (now - ts.retention_ms)
      (trimToMax ts.max_samples (ts.samples ++ [s]))).length_le
    have h2 := trimToMax_length ts.max_samples (ts.samples ++ [s])
    simp only [TimeSeries.add_sample, TimeSeries.cleanup_old_samples]
    omega
  · intro x hx
    exact dropOldFront_bound _ _ htrim x hx

/-- Witness for C8: the series with bound 2 and a 10 ms window holding
one sample at time 5, receiving a fresh sample at time 20. -/
theorem add_sample_bounds_witness :
    (({ samples := [⟨5, 0⟩], max_samples := 2, retention_ms := 10 } :
        TimeSeries).add_sample ⟨20, 7⟩ 20).samples.length ≤ 2 ∧
    ∀ x ∈ (({ samples := [⟨5, 0⟩], max_samples := 2, retention_ms := 10 } :
        TimeSeries).add_sample ⟨20, 7⟩ 20).samples, (20 : Int) - 10 ≤ x.timestamp :=
  add_sample_bounds { samples := [⟨5, 0⟩], max_samples := 2, retention_ms := 10 }
    ⟨20, 7⟩ 20 (by decide) (by decide) rfl

/-! ### Container state values (`state.rs`)

`JSContainerState` is referenced by `state.rs` but declared elsewhere in
the crate; its fields used by `state.rs` are `count`, `framework` and
`last_updated`.  `f64` state numbers are modelled as integers (the
claims under study never compare distinct floats). -/

/-- The framework-counter object carried by `StateValue::Object`. -/
structure JSContainerState where
  count : Int
  framework : String
  last_updated : Int
deriving DecidableEq

/-- `StateValue` (`state.rs:8-17`). -/
inductive StateValue where
  | object (o : JSContainerState)
  | strVal (s : String)
  | number (n : Int)
  | boolean (b : Bool)
  | arrayVal (items : List StateValue)
  | mapVal (entries : List (String × StateValue))
  | nullVal

/-- `StateValue::equals` (`state.rs:59-70`): a shallow comparison with no
arm for `Array` or `Map`, which therefore fall into the catch-all
`false`. -/
def StateValue.equals : StateValue → StateValue → Bool
  | .object s, .object o => s.count == o.count && s.framework == o.framework
  | .strVal s, .strVal o => s == o
  | .number s, .number o => s == o
  | .boolean s, .boolean o => s == o
  | .nullVal, .nullVal => true
  | _, _ => false

/-- `HashMap::get` on the container-state map. -/
def lookupState : List (String × StateValue) → String → Option StateValue
  | [], _ => none
  | (k, v) :: rest, id => if k = id then some v else lookupState rest id

/-- In-place update of the container-state map entry. -/
def updateState : List (String × StateValue) → String → StateValue → List (String × StateValue)
  | [], _, _ => []
  | (k, v) :: rest, id, s => if k = id then (k, s) :: rest else (k, v) :: updateState rest id s

/-- The `StateManager` state observable through `update_container`:
the per-container states and the record of snapshots created (the
source also updates the cache and notifies subscribers on the same
branch). -/
structure StateManager where
  container_states : List (String × StateValue)
  snapshots_made : List (String × StateValue)

/-- `StateManager::update_container` (`state.rs:215-235`): when the
container exists and `equals` reports a change, replace the state,
create a snapshot, update the cache and notify; otherwise do nothing. -/
def StateManager.update_container (m : StateManager) (id : String)
    (new_state : StateValue) : StateManager :=
  match lookupState m.container_states id with
  | some current =>
    if current.equals new_state then m
    else
      { container_states := updateState m.container_states id new_state,
        snapshots_made := (id, new_state) :: m.snapshots_made }
  | none => m

theorem equals_arrayVal_eq_false (v : StateValue) (xs : List StateValue) :
    StateValue.equals v (.arrayVal xs) = false := by
  cases v <;> rfl

theorem equals_mapVal_eq_false (v : StateValue) (es : List (String × StateValue)) :
    StateValue.equals v (.mapVal es) = false := by
  cases v <;> rfl

/-- C9: `StateValue::equals` is not reflexive on composites — every pair
of `Array` values and every pair of `Map` values (identical copies
included) compares `false`, and consequently `update_container` on an
existing container always takes the "changed" branch for an array- or
map-valued new state: the state is replaced and a snapshot is created
even when the new state is an identical copy. -/
theorem equals_not_reflexive_on_composites :
    (∀ xs ys : List StateValue,
      StateValue.equals (.arrayVal xs) (.arrayVal ys) = false) ∧
    (∀ es fs : List (String × StateValue),
      StateValue.equals (.mapVal es) (.mapVal fs) = false) ∧
    (∀ (m : StateManager) (id : String) (cur : StateValue),
      lookupState m.container_states id = some cur →
      (∀ xs, (m.update_container id (.arrayVal xs)).snapshots_made =
          (id, StateValue.arrayVal xs) :: m.snapshots_made ∧
        lookupState (m.update_container id (.arrayVal xs)).container_states id =
          some (.arrayVal xs)) ∧
      (∀ es, (m.update_container id (.mapVal es)).snapshots_made =
          (id, StateValue.mapVal es) :: m.snapshots_made ∧
        lookupState (m.update_container id (.mapVal es)).container_states id =
          some (.mapVal es))) := by
  refine ⟨fun xs ys => rfl, fun es fs => rfl, ?_⟩
  intro m id cur hcur
  have hupd : ∀ states : List (String × StateValue), ∀ v : StateValue,
      lookupState states id = some cur → lookupState (updateState states id v) id = some v := by
    intro states v h
    induction states with
    | nil => simp [lookupState] at h
    | cons kv rest ih =>
      obtain ⟨k, w⟩ := kv
      by_cases hk : k = id
      · simp [updateState, lookupState, hk]
      · rw [lookupState, if_neg hk] at h
        rw [updateState, if_neg hk, lookupState, if_neg hk]
        exact ih h
  constructor
  · intro xs
    simp only [StateManager.update_container, hcur, equals_arrayVal_eq_false,
      Bool.false_eq_true, if_false]
    exact ⟨trivial, hupd m.container_states _ hcur⟩
  · intro es
    simp only [StateManager.update_container, hcur, equals_mapVal_eq_false,
      Bool.false_eq_true, if_false]
    exact ⟨trivial, hupd m.container_states _ hcur⟩

/-- Witness for C9: a manager holding an array state for container "c"
receives an identical copy of that array; the snapshot record grows and
the state is replaced. -/
theorem equals_not_reflexive_on_composites_witness :
    lookupState [("c", StateValue.arrayVal [StateValue.number 1])] "c" =
      some (StateValue.arrayVal [StateValue.number 1]) ∧
    (StateManager.update_container
        ⟨[("c", StateValue.arrayVal [StateValue.number 1])], []⟩ "c"
        (StateValue.arrayVal [StateValue.number 1])).snapshots_made =
      [("c", StateValue.arrayVal [StateValue.number 1])] :=
  ⟨rfl,
    ((equals_not_reflexive_on_composites.2.2
      ⟨[("c", StateValue.arrayVal [StateValue.number 1])], []⟩ "c"
      (StateValue.arrayVal [StateValue.number 1]) rfl).1
      [StateValue.number 1]).1⟩

end Gaesup
